import Mathlib

/-!
Verification of the markdown transformation pipeline of
`docs/readthedocs/sync_docs.py` (Rivulet repository).

The Python source performs pattern-based text rewriting with `re.sub`.
We embed each pass as an executable Lean function on `List Char`
(with `String` wrappers at the API level).  Scanning functions take a
fuel argument so that all recursion is structural and kernel-reducible;
callers always pass `length + 1` fuel, which suffices because every
match consumes at least one character.

The filesystem is modelled as an existence oracle `Fs : String → Bool`
and the `SYNC_FILES` dictionary as an association list from normalized
repo-relative source paths to destination paths relative to the docs
root (the Python code stores absolute paths and compares after
`Path.resolve()`; relative-to-root comparison is equivalent for the
paths that occur).
-/

set_option maxRecDepth 100000

namespace Rivulet

/-- ASCII whitespace, as in Python's `str.strip()` / regex `\s`
(the unicode cases do not occur in the processed documents). -/
def isWs (c : Char) : Bool :=
  c = ' ' || c = '\t' || c = '\n' || c = '\r' || c = '\x0b' || c = '\x0c'

/-- Python `str.strip()`. -/
def stripL (cs : List Char) : List Char :=
  ((cs.dropWhile isWs).reverse.dropWhile isWs).reverse

/-- Substring test, Python's `sub in s` (here `containsL hay needle`). -/
def containsL (hay needle : List Char) : Bool :=
  match hay with
  | [] => needle.isEmpty
  | c :: t => needle.isPrefixOf (c :: t) || containsL t needle

def containsStr (s sub : String) : Bool := containsL s.data sub.data

def startsWithStr (s p : String) : Bool := p.data.isPrefixOf s.data

/-- Python `str.lower()` (ASCII; the URLs involved are ASCII). -/
def lowerStr (s : String) : String := ⟨s.data.map Char.toLower⟩

def stripStr (s : String) : String := ⟨stripL s.data⟩

/-! ## Badge classifier (`is_dynamic_badge`, sync_docs.py lines 97-146) -/

/-- The allow-list of static-badge domains (kept). -/
def static_domains : List String :=
  ["opensource.org", "dotnet.microsoft.com", "nuget.org"]

/-- The deny-list of dynamic-badge URL patterns (removed). -/
def dynamic_patterns : List String :=
  ["github.com/", "codecov.io/", "scorecard.dev/"]

/-- Keywords that make a shields.io badge dynamic. -/
def dynamic_shields_patterns : List String :=
  ["readthedocs", "github", "codecov"]

/-- Source `is_dynamic_badge(url)`: `true` means the badge is removed. -/
def is_dynamic_badge (url : String) : Bool :=
  let url_lower := lowerStr url
  if static_domains.any (fun d => containsStr url_lower d) then false
  else if dynamic_patterns.any (fun d => containsStr url_lower d) then true
  else if containsStr url_lower "shields.io" || containsStr url_lower "img.shields.io" then
    dynamic_shields_patterns.any (fun k => containsStr url_lower k)
  else false

/-! ### Substring facts -/

theorem containsL_iff (hay needle : List Char) :
    containsL hay needle = true ↔ ∃ p q, hay = p ++ needle ++ q := by
  induction hay with
  | nil =>
    simp only [containsL, List.isEmpty_iff]
    constructor
    · rintro rfl; exact ⟨[], [], rfl⟩
    · rintro ⟨p, q, h⟩
      rcases List.append_eq_nil.mp (List.append_eq_nil.mp h.symm).1 with ⟨_, h2⟩
      exact h2
  | cons c t ih =>
    simp only [containsL, Bool.or_eq_true]
    constructor
    · rintro (h | h)
      · obtain ⟨q, hq⟩ := List.isPrefixOf_iff_prefix.mp h
        exact ⟨[], q, by simpa using hq.symm⟩
      · obtain ⟨p, q, hpq⟩ := ih.mp h
        exact ⟨c :: p, q, by simp [hpq]⟩
    · rintro ⟨p, q, hpq⟩
      cases p with
      | nil =>
        left
        exact List.isPrefixOf_iff_prefix.mpr ⟨q, by simpa using hpq.symm⟩
      | cons x p' =>
        right
        refine ih.mpr ⟨p', q, ?_⟩
        simpa using (List.cons_eq_cons.mp hpq).2

theorem containsL_trans {a b hay : List Char}
    (hba : containsL b a = true) (hhb : containsL hay b = true) :
    containsL hay a = true := by
  obtain ⟨p, q, rfl⟩ := (containsL_iff b a).mp hba
  obtain ⟨r, s, rfl⟩ := (containsL_iff hay _).mp hhb
  exact (containsL_iff _ _).mpr ⟨r ++ p, q ++ s, by simp⟩

theorem containsStr_trans {a b hay : String}
    (hba : containsStr b a = true) (hhb : containsStr hay b = true) :
    containsStr hay a = true :=
  containsL_trans hba hhb

/-! ## More string utilities -/

/-- Python `str.count(sub)`: non-overlapping occurrence count. -/
def countSubAux (needle : List Char) : Nat → List Char → Nat
  | 0, _ => 0
  | _, [] => 0
  | fuel+1, c :: t =>
    if needle.isPrefixOf (c :: t) then
      1 + countSubAux needle fuel ((c :: t).drop needle.length)
    else countSubAux needle fuel t

def countSub (hay needle : List Char) : Nat :=
  countSubAux needle (hay.length + 1) hay

/-- Python `str.split(sep)` for non-empty `sep` (leftmost, non-overlapping). -/
def splitOnAux (sep : List Char) : Nat → List Char → List Char → List (List Char)
  | 0, rest, acc => [acc.reverse ++ rest]
  | _, [], acc => [acc.reverse]
  | fuel+1, c :: t, acc =>
    if sep.isPrefixOf (c :: t) then
      acc.reverse :: splitOnAux sep fuel ((c :: t).drop sep.length) []
    else splitOnAux sep fuel t (c :: acc)

def splitOnL (hay sep : List Char) : List (List Char) :=
  splitOnAux sep (hay.length + 1) hay []

/-- Python `str.split('\n')`-style single-character split. -/
def splitOnChar (sep : Char) : List Char → List (List Char)
  | [] => [[]]
  | c :: t =>
    if c = sep then [] :: splitOnChar sep t
    else
      match splitOnChar sep t with
      | [] => [[c]]
      | h :: r => (c :: h) :: r

/-- Python `sep.join(parts)`. -/
def joinSep (sep : List Char) : List (List Char) → List Char
  | [] => []
  | [x] => x
  | x :: y :: t => x ++ sep ++ joinSep sep (y :: t)

/-! ## Badge filtering pass (`filter_badges_for_versioned_docs`, lines 148-181) -/

/-- Source `re.search(r'<img[^>]+src="([^"]+)"', full)` positioned right after a
literal `<img`: the `[^>]+` run is greedy, so the last `src="` start inside
it is tried first, backtracking to earlier ones. -/
def searchImgSrcAt (cs : List Char) : Option (List Char) :=
  let run := cs.takeWhile (fun c => c ≠ '>')
  let cands := ((List.range (run.length + 1)).reverse).filter (fun j =>
    decide (1 ≤ j) && "src=\"".data.isPrefixOf (cs.drop j))
  cands.firstM (fun j =>
    let v := (cs.drop (j + 5)).takeWhile (fun c => c ≠ '"')
    if v.isEmpty then none
    else
      match (cs.drop (j + 5)).drop v.length with
      | '"' :: _ => some v
      | _ => none)

/-- Source `re.search` over the whole badge text: first `<img` start that succeeds. -/
def searchImgSrc : Nat → List Char → Option (List Char)
  | 0, _ => none
  | _, [] => none
  | fuel+1, c :: t =>
    match (if "<img".data.isPrefixOf (c :: t) then searchImgSrcAt ((c :: t).drop 4) else none) with
    | some v => some v
    | none => searchImgSrc fuel t

/-- The img-src URL extracted from one badge's matched text
(`img_match.group(1) if img_match else ''`, lines 154-155). -/
def imgSrcOf (full_match : String) : String :=
  match searchImgSrc (full_match.data.length + 1) full_match.data with
  | some v => ⟨v⟩
  | none => ""

/-- Source `filter_badge` (lines 148-163): keep or drop one matched badge, based on
its href URL and its img-src URL. -/
def filter_badge (full_match href_url : String) : String :=
  if is_dynamic_badge href_url || is_dynamic_badge (imgSrcOf full_match) then "" else full_match

/-- Match `<a href="([^"]+)">[^<]*<img[^>]*>[^<]*</a>\s*` at the start;
returns (href, total length). -/
def matchBadgeAnchor (cs : List Char) : Option (List Char × Nat) :=
  if "<a href=\"".data.isPrefixOf cs then
    let r0 := cs.drop 9
    let href := r0.takeWhile (fun c => c ≠ '"')
    if href.isEmpty then none
    else
      let r1 := r0.drop href.length
      if "\">".data.isPrefixOf r1 then
        let r2 := r1.drop 2
        let t1 := r2.takeWhile (fun c => c ≠ '<')
        let r3 := r2.drop t1.length
        if "<img".data.isPrefixOf r3 then
          let r4 := r3.drop 4
          let attrs := r4.takeWhile (fun c => c ≠ '>')
          match r4.drop attrs.length with
          | '>' :: r5 =>
            let t2 := r5.takeWhile (fun c => c ≠ '<')
            let r6 := r5.drop t2.length
            if "</a>".data.isPrefixOf r6 then
              let ws := (r6.drop 4).takeWhile isWs
              some (href,
                9 + href.length + 2 + t1.length + 4 + attrs.length + 1 + t2.length + 4 + ws.length)
            else none
          | _ => none
        else none
      else none
  else none

/-- One-pass non-overlapping leftmost `re.sub`: at each position attempt a
match; on a match of length `n` (always ≥ 1 for the matchers used here) emit
the replacement and continue after the match. -/
def scanSub (f : List Char → Option (List Char × Nat)) : Nat → List Char → List Char
  | 0, cs => cs
  | _, [] => []
  | fuel+1, c :: t =>
    match f (c :: t) with
    | some (repl, n) => repl ++ scanSub f fuel ((c :: t).drop n)
    | none => c :: scanSub f fuel t

def badgeAnchorTry (cs : List Char) : Option (List Char × Nat) :=
  (matchBadgeAnchor cs).map (fun p =>
    ((filter_badge ⟨cs.take p.2⟩ ⟨p.1⟩).data, p.2))

/-- Pattern `!\[CI/CD Pipeline\].*?\n` (line 175): `.` does not cross newlines, so
the match extends to the first newline (no newline, no match). -/
def cicdTry (cs : List Char) : Option (List Char × Nat) :=
  if "![CI/CD Pipeline]".data.isPrefixOf cs then
    let r := cs.drop 17
    let body := r.takeWhile (fun c => c ≠ '\n')
    match r.drop body.length with
    | '\n' :: _ => some ([], 17 + body.length + 1)
    | _ => none
  else none

/-- Source `filter_badges_for_versioned_docs` (lines 73-181): the badge-anchor
removal pass followed by the CI/CD markdown badge removal pass. -/
def filter_badges_for_versioned_docs (content : String) : String :=
  let s1 := scanSub badgeAnchorTry (content.data.length + 1) content.data
  ⟨scanSub cicdTry (s1.length + 1) s1⟩

/-! ## Table cell reflow (`improve_table_cell`, lines 272-295) -/

/-- The visual lines of a table cell: split on `<br/>`, strip each, drop
blank ones (`[line.strip() for line in cell.split('<br/>') if line.strip()]`). -/
def cellLines (cell : List Char) : List (List Char) :=
  ((splitOnL cell "<br/>".data).map stripL).filter (fun l => !l.isEmpty)

/-- Source `improve_table_cell` (lines 272-287), applied to the regex group(1). -/
def improve_table_cell (cell : String) : String :=
  let lines := cellLines cell.data
  if lines.length > 1 then
    let badges := lines.filter (fun l => containsL l "<img".data)
    let docs_link := lines.filter (fun l => containsL l "Docs</a>".data)
    match badges, docs_link with
    | _ :: _, d :: _ => ⟨joinSep [' '] badges ++ "<br/><br/>".data ++ d⟩
    | _, _ => cell
  else cell

/-! ## Centered div processing (`process_center_div`, lines 200-233) -/

/-- Prefix match of `\[\!\[([^\]]*)\]\(([^\)]+)\)\]\(([^\)]+)\)` (line 219);
returns (alt, img-url, link-url). -/
def matchBadgeMd (cs : List Char) : Option (List Char × List Char × List Char) :=
  match cs with
  | '[' :: '!' :: '[' :: rest =>
    let alt := rest.takeWhile (fun c => c ≠ ']')
    match rest.drop alt.length with
    | ']' :: '(' :: r2 =>
      let img := r2.takeWhile (fun c => c ≠ ')')
      if img.isEmpty then none
      else
        match r2.drop img.length with
        | ')' :: ']' :: '(' :: r3 =>
          let url := r3.takeWhile (fun c => c ≠ ')')
          if url.isEmpty then none
          else
            match r3.drop url.length with
            | ')' :: _ => some (alt, img, url)
            | _ => none
        | _ => none
    | _ => none
  | _ => none

/-- Source `process_center_div` (lines 200-233), applied to the regex group(1). -/
def process_center_div (inner : String) : String :=
  let div_content := stripL inner.data
  if "<img".data.isPrefixOf div_content && countSub div_content "<img".data == 1 then
    ⟨"\n<div align=\"center\">\n".data ++ div_content ++ "\n</div>\n".data⟩
  else if containsL div_content "![".data then
    let badge_lines := (splitOnChar '\n' div_content).filterMap (fun l =>
      if !(stripL l).isEmpty && containsL l "![".data then some (stripL l) else none)
    if !badge_lines.isEmpty then
      let html_badges := badge_lines.filterMap (fun b =>
        (matchBadgeMd b).map (fun g =>
          "<a href=\"".data ++ g.2.2 ++ "\"><img src=\"".data ++ g.2.1 ++
            "\" alt=\"".data ++ g.1 ++ "\"></a>".data))
      if !html_badges.isEmpty then
        ⟨"\n<p align=\"center\">\n".data ++ joinSep [' '] html_badges ++ "\n</p>\n".data⟩
      else
        ⟨"\n<div class=\"badges\" markdown=\"1\" align=\"center\">\n\n".data ++
          joinSep [' '] badge_lines ++ "\n\n</div>\n".data⟩
    else ⟨'\n' :: (div_content ++ ['\n'])⟩
  else ⟨'\n' :: (div_content ++ ['\n'])⟩

/-- The `(.*?)\n\s*</div>` tail of the div-block regex (line 237, DOTALL):
minimal content such that a newline, optional whitespace, and `</div>`
follow; returns (content, consumed length including the terminator). -/
def divBody (acc : List Char) : Nat → List Char → Option (List Char × Nat)
  | 0, _ => none
  | _, [] => none
  | fuel+1, c :: r =>
    if c = '\n' then
      let ws := r.takeWhile isWs
      if "</div>".data.isPrefixOf (r.drop ws.length) then
        some (acc.reverse, acc.length + 1 + ws.length + 6)
      else divBody (c :: acc) fuel r
    else divBody (c :: acc) fuel r

/-- Match `<div align="center">\s*\n(.*?)\n\s*</div>` at the start; the
greedy `\s*\n` tries the newlines of the whitespace run from last to first. -/
def divTry (cs : List Char) : Option (List Char × Nat) :=
  if "<div align=\"center\">".data.isPrefixOf cs then
    let r0 := cs.drop 20
    let wsRun := r0.takeWhile isWs
    let ks := (List.range wsRun.length).reverse.filter (fun k => wsRun.getD k ' ' = '\n')
    ks.firstM (fun k =>
      (divBody [] (r0.length + 1) (r0.drop (k + 1))).map (fun p =>
        ((process_center_div ⟨p.1⟩).data, 20 + k + 1 + p.2)))
  else none

def divPass (s : String) : String :=
  ⟨scanSub divTry (s.data.length + 1) s.data⟩

/-! ## Package-link shorthand passes (lines 245-264) -/

/-- Python `.lower().replace('.', '-')`. -/
def lowerDash (g : List Char) : List Char :=
  (g.map Char.toLower).map (fun c => if c = '.' then '-' else c)

/-- Pattern `\[Docs\]\(src/Rivulet\.([^/]+)/README\.md\)` (line 246). -/
def docsRivuletTry (cs : List Char) : Option (List Char × Nat) :=
  if "[Docs](src/Rivulet.".data.isPrefixOf cs then
    let r0 := cs.drop 19
    let g := r0.takeWhile (fun c => c ≠ '/')
    if g.isEmpty then none
    else if "/README.md)".data.isPrefixOf (r0.drop g.length) then
      some ("[Docs](packages/rivulet-".data ++ lowerDash g ++ ".md)".data,
        19 + g.length + 11)
    else none
  else none

def docsRivuletPass (s : String) : String :=
  ⟨scanSub docsRivuletTry (s.data.length + 1) s.data⟩

/-- Pattern `<a href="src/Rivulet\.([^/]+)/README\.md">` (line 254). -/
def hrefRivuletTry (cs : List Char) : Option (List Char × Nat) :=
  if "<a href=\"src/Rivulet.".data.isPrefixOf cs then
    let r0 := cs.drop 21
    let g := r0.takeWhile (fun c => c ≠ '/')
    if g.isEmpty then none
    else if "/README.md\">".data.isPrefixOf (r0.drop g.length) then
      some ("<a href=\"packages/rivulet-".data ++ lowerDash g ++ "/\">".data,
        21 + g.length + 12)
    else none
  else none

def hrefRivuletPass (s : String) : String :=
  ⟨scanSub hrefRivuletTry (s.data.length + 1) s.data⟩

/-- Pattern `\(src/([^)]+)/README\.md\)` (line 261): the group is the non-`)` run up
to the closing parenthesis minus its forced `/README.md` suffix. -/
def srcReadmeTry (cs : List Char) : Option (List Char × Nat) :=
  if "(src/".data.isPrefixOf cs then
    let r0 := cs.drop 5
    let run := r0.takeWhile (fun c => c ≠ ')')
    match r0.drop run.length with
    | ')' :: _ =>
      if "/README.md".data.isSuffixOf run && decide (10 < run.length) then
        let g := run.take (run.length - 10)
        let lastSeg := (splitOnChar '/' g).getLastD []
        some ("(packages/".data ++ lowerDash lastSeg ++ ".md)".data, 5 + run.length + 1)
      else none
    | _ => none
  else none

def srcReadmePass (s : String) : String :=
  ⟨scanSub srcReadmeTry (s.data.length + 1) s.data⟩

/-! ## Table-cell pass (`<td>` regex, lines 290-295) -/

/-- Candidates (in regex backtracking preference order) for one iteration of
`<a[^>]*>.*?</a>\s*(?:<br/>)?` (DOTALL): each yields (consumed chunk, rest).
`.*?` tries closing `</a>` positions left to right; the optional `<br/>` is
preferred consumed. -/
def tdIterCands (cs : List Char) : List (List Char × List Char) :=
  if "<a".data.isPrefixOf cs then
    let r0 := cs.drop 2
    let attrs := r0.takeWhile (fun c => c ≠ '>')
    match r0.drop attrs.length with
    | '>' :: r1 =>
      let head := "<a".data ++ attrs ++ ['>']
      ((List.range (r1.length + 1)).filter
          (fun i => "</a>".data.isPrefixOf (r1.drop i))).flatMap (fun i =>
        let content := r1.take i
        let r2 := r1.drop (i + 4)
        let ws := r2.takeWhile isWs
        let r3 := r2.drop ws.length
        let chunk := head ++ content ++ "</a>".data ++ ws
        if "<br/>".data.isPrefixOf r3 then
          [(chunk ++ "<br/>".data, r3.drop 5), (chunk, r3)]
        else [(chunk, r3)])
    | _ => []
  else []

/-- The `(?:...)+` loop: greedy, so continuing with another iteration is
preferred over stopping. -/
def tdPlusCands : Nat → List Char → List (List Char × List Char)
  | 0, _ => []
  | fuel+1, cs =>
    (tdIterCands cs).flatMap (fun p =>
      ((tdPlusCands fuel p.2).map (fun q => (p.1 ++ q.1, q.2))) ++ [p])

/-- Match `<td>\s*((?:<a[^>]*>.*?</a>\s*(?:<br/>)?)+)\s*</td>` at the start;
the replacement re-wraps the reflowed group(1) (line 292). -/
def tdTry (cs : List Char) : Option (List Char × Nat) :=
  if "<td>".data.isPrefixOf cs then
    let r0 := cs.drop 4
    let ws0 := r0.takeWhile isWs
    let r1 := r0.drop ws0.length
    match (tdPlusCands (r1.length + 1) r1).firstM (fun p =>
        let ws1 := p.2.takeWhile isWs
        if "</td>".data.isPrefixOf (p.2.drop ws1.length) then
          some (p.1, 4 + ws0.length + p.1.length + ws1.length + 5)
        else none) with
    | some (g, n) =>
      some ("<td>\n".data ++ (improve_table_cell ⟨g⟩).data ++ "\n</td>".data, n)
    | none => none
  else none

def tdPass (s : String) : String :=
  ⟨scanSub tdTry (s.data.length + 1) s.data⟩

/-! ## Package-name shrink pass (lines 299-303) -/

/-- The `(.*?Rivulet\.[^<]+)` part of `<td><strong>(.*?Rivulet\.[^<]+)</strong></td>`
(line 300): `.` does not cross newlines; `acc` is the reversed `.*?` prefix. -/
def strongSearch (acc : List Char) : Nat → List Char → Option (List Char)
  | 0, _ => none
  | fuel+1, cs =>
    if "Rivulet.".data.isPrefixOf cs then
      let r0 := cs.drop 8
      let tail := r0.takeWhile (fun c => c ≠ '<')
      if !tail.isEmpty && "</strong></td>".data.isPrefixOf (r0.drop tail.length) then
        some (acc.reverse ++ "Rivulet.".data ++ tail)
      else
        match cs with
        | [] => none
        | c :: t => if c = '\n' then none else strongSearch (c :: acc) fuel t
    else
      match cs with
      | [] => none
      | c :: t => if c = '\n' then none else strongSearch (c :: acc) fuel t

def strongTry (cs : List Char) : Option (List Char × Nat) :=
  if "<td><strong>".data.isPrefixOf cs then
    let r0 := cs.drop 12
    match strongSearch [] (r0.length + 1) r0 with
    | some g =>
      some ("<td><span style=\"font-size: 0.9em; font-weight: 600;\">".data ++ g ++
        "</span></td>".data, 12 + g.length + 14)
    | none => none
  else none

def strongPass (s : String) : String :=
  ⟨scanSub strongTry (s.data.length + 1) s.data⟩

/-! ## Link resolver (`convert_markdown_links` / `convert_link`, lines 311-413) -/

/-- Filesystem existence oracle (`Path.exists()`), queried on normalized
repo-relative paths. -/
abbrev Fs := String → Bool

/-- The Sync Map (`SYNC_FILES`): normalized repo-relative source path ↦
destination path relative to the docs root (`dest.relative_to(DOCS_DIR)`). -/
abbrev SyncMap := List (String × String)

def lookupSync (sm : SyncMap) (k : String) : Option String := List.lookup k sm

/-- Textual core of `(REPO_ROOT / link_path).resolve()`, repo-relative:
drop empty and `.` segments, let `..` pop (non-poppable leading `..`s are
kept and an absolute path keeps its leading `/`; such paths are outside the
repository and can never match a Sync Map key or a synced repo file). -/
def normSegs (acc : List (List Char)) : List (List Char) → List (List Char)
  | [] => acc.reverse
  | s :: rest =>
    if s.isEmpty || s = ".".data then normSegs acc rest
    else if s = "..".data then
      match acc with
      | a :: acc' => if a = "..".data then normSegs (s :: a :: acc') rest else normSegs acc' rest
      | [] => normSegs [s] rest
    else normSegs (s :: acc) rest

def normalizePath (p : List Char) : List Char :=
  let j := joinSep ['/'] (normSegs [] (splitOnChar '/' p))
  if p.headD ' ' = '/' then '/' :: j else j

/-- The two sentinel markers (lines 373 and 376). -/
def removeLineMarker : String := "___REMOVE_THIS_LINE___"

def removeLinkMarker : String := "___REMOVE_THIS_LINK___"

/-- The normalized repo-relative target of a link: the `LICENSE` →
`LICENSE.txt` special case (lines 342-343) followed by
`(REPO_ROOT / link_path).resolve()` (lines 346-350). -/
def linkTarget (path : String) : String :=
  ⟨normalizePath (if path = "LICENSE" then "LICENSE.txt" else path).data⟩

/-- Source `convert_link` (lines 328-388): the replacement for one matched link
`[text](path)`; `linePfx` is the original text of the enclosing line before
the match (`content[line_start:start_pos]`). -/
def convert_link (sm : SyncMap) (fs : Fs) (text path linePfx : String) : String :=
  let original := "[" ++ text ++ "](" ++ path ++ ")"
  if startsWithStr path "http://" || startsWithStr path "https://" then original
  else if startsWithStr path "#" then original
  else
    let linked : String := linkTarget path
    match lookupSync sm linked with
    | some dest => "[" ++ text ++ "](" ++ dest ++ ")"
    | none =>
      if fs linked then
        if startsWithStr (stripStr linePfx) "-" then removeLineMarker else removeLinkMarker
      else if startsWithStr (stripStr linePfx) "-" then removeLineMarker
      else original

/-- Match `\[([^\]]+)\]\(([^\)]+)\)` at the start (the `(?<!\!)` lookbehind
is checked by the caller); returns (text, path, length). -/
def linkTry (cs : List Char) : Option (List Char × List Char × Nat) :=
  match cs with
  | '[' :: r0 =>
    let text := r0.takeWhile (fun c => c ≠ ']')
    if text.isEmpty then none
    else
      match r0.drop text.length with
      | ']' :: '(' :: r1 =>
        let path := r1.takeWhile (fun c => c ≠ ')')
        if path.isEmpty then none
        else
          match r1.drop path.length with
          | ')' :: _ => some (text, path, 1 + text.length + 2 + path.length + 1)
          | _ => none
      | _ => none
  | _ => none

/-- Append original consumed text to the current-line-prefix accumulator
(resetting at newlines, as `content.rfind('\n', 0, start_pos)` does). -/
def updPfx (pfx consumed : List Char) : List Char :=
  consumed.foldl (fun acc c => if c = '\n' then [] else acc ++ [c]) pfx

/-- The marking scan of `convert_markdown_links`: leftmost non-overlapping
matches of `(?<!\!)\[([^\]]+)\]\(([^\)]+)\)`, each replaced via
`convert_link`.  `prev` is the previous original character (for the
lookbehind), `pfx` the original current-line prefix. -/
def scanLinks (sm : SyncMap) (fs : Fs) :
    Nat → Option Char → List Char → List Char → List Char
  | 0, _, _, cs => cs
  | _, _, _, [] => []
  | fuel+1, prev, pfx, c :: t =>
    match (if prev = some '!' then none else linkTry (c :: t)) with
    | some (text, path, n) =>
      let consumed := (c :: t).take n
      (convert_link sm fs ⟨text⟩ ⟨path⟩ ⟨pfx⟩).data ++
        scanLinks sm fs fuel consumed.getLast? (updPfx pfx consumed) ((c :: t).drop n)
    | none =>
      c :: scanLinks sm fs fuel (some c) (if c = '\n' then [] else pfx ++ [c]) t

/-- Sweep `re.sub(r'^.*___REMOVE_THIS_LINE___.*\n', '', content, flags=MULTILINE)`
(line 399): delete every newline-terminated line containing the line marker
(a final unterminated line is not matched by the pattern, hence kept). -/
def sweepLines (cs : List Char) : List Char :=
  let parts := splitOnChar '\n' cs
  (parts.dropLast.foldr (fun line acc =>
    if containsL line removeLineMarker.data then acc else line ++ '\n' :: acc) [])
    ++ parts.getLastD []

def linkMarkerTry (cs : List Char) : Option (List Char × Nat) :=
  if removeLinkMarker.data.isPrefixOf cs then some ([], removeLinkMarker.data.length) else none

/-- Source `convert_markdown_links` (lines 311-413): mark, sweep marked lines,
strip inline markers. -/
def convert_markdown_links (sm : SyncMap) (fs : Fs) (content : String) : String :=
  let s1 := scanLinks sm fs (content.data.length + 1) none [] content.data
  let s2 := sweepLines s1
  ⟨scanSub linkMarkerTry (s2.length + 1) s2⟩

/-! ## Orchestrator (`convert_github_to_mkdocs`, lines 184-308) -/

/-- Source `convert_github_to_mkdocs` (lines 184-308): the fixed pipeline.
The asset-path substitution mentioned in the source is a commented-out
no-op (line 197) and contributes no pass. -/
def convert_github_to_mkdocs (sm : SyncMap) (fs : Fs) (content : String) : String :=
  let c1 := divPass content
  let c2 := docsRivuletPass c1
  let c3 := hrefRivuletPass c2
  let c4 := srcReadmePass c3
  let c5 := filter_badges_for_versioned_docs c4
  let c6 := tdPass c5
  let c7 := strongPass c6
  convert_markdown_links sm fs c7

/-! # Claims -/

/-- C4: the badge classifier keeps every URL containing an allow-list domain
(overriding any other signal); otherwise it removes every URL containing a
deny-list pattern; otherwise, for shields.io URLs, it removes exactly when a
readthedocs/github/codecov keyword is embedded; and any URL matching none of
these defaults to keep.  (`is_dynamic_badge url = true` means "remove".) -/
theorem is_dynamic_badge_spec (url : String) :
    ((∃ d ∈ static_domains, containsStr (lowerStr url) d = true) →
      is_dynamic_badge url = false) ∧
    ((∀ d ∈ static_domains, containsStr (lowerStr url) d = false) →
      (∃ d ∈ dynamic_patterns, containsStr (lowerStr url) d = true) →
      is_dynamic_badge url = true) ∧
    ((∀ d ∈ static_domains, containsStr (lowerStr url) d = false) →
      (∀ d ∈ dynamic_patterns, containsStr (lowerStr url) d = false) →
      containsStr (lowerStr url) "shields.io" = true →
      (is_dynamic_badge url = true ↔
        ∃ k ∈ dynamic_shields_patterns, containsStr (lowerStr url) k = true)) ∧
    ((∀ d ∈ static_domains, containsStr (lowerStr url) d = false) →
      (∀ d ∈ dynamic_patterns, containsStr (lowerStr url) d = false) →
      containsStr (lowerStr url) "shields.io" = false →
      is_dynamic_badge url = false) := by
  have himg : containsStr (lowerStr url) "shields.io" = false →
      containsStr (lowerStr url) "img.shields.io" = false := by
    intro h3
    cases hx : containsStr (lowerStr url) "img.shields.io" with
    | false => rfl
    | true =>
      have : containsStr (lowerStr url) "shields.io" = true :=
        containsStr_trans (by decide) hx
      rw [h3] at this
      exact absurd this (by simp)
  refine ⟨?_, ?_, ?_, ?_⟩
  · intro h
    have ha : static_domains.any (fun d => containsStr (lowerStr url) d) = true := by
      rw [List.any_eq_true]
      obtain ⟨d, hd, hcd⟩ := h
      exact ⟨d, hd, hcd⟩
    simp [is_dynamic_badge, ha]
  · intro hs hd
    have ha : static_domains.any (fun d => containsStr (lowerStr url) d) = false := by
      rw [List.any_eq_false]
      intro d hdm
      simp [hs d hdm]
    have hb : dynamic_patterns.any (fun d => containsStr (lowerStr url) d) = true := by
      rw [List.any_eq_true]
      obtain ⟨d, hdm, hcd⟩ := hd
      exact ⟨d, hdm, hcd⟩
    simp [is_dynamic_badge, ha, hb]
  · intro hs hd h3
    have ha : static_domains.any (fun d => containsStr (lowerStr url) d) = false := by
      rw [List.any_eq_false]; intro d hdm; simp [hs d hdm]
    have hb : dynamic_patterns.any (fun d => containsStr (lowerStr url) d) = false := by
      rw [List.any_eq_false]; intro d hdm; simp [hd d hdm]
    simp [is_dynamic_badge, ha, hb, h3, List.any_eq_true]
  · intro hs hd h3
    have ha : static_domains.any (fun d => containsStr (lowerStr url) d) = false := by
      rw [List.any_eq_false]; intro d hdm; simp [hs d hdm]
    have hb : dynamic_patterns.any (fun d => containsStr (lowerStr url) d) = false := by
      rw [List.any_eq_false]; intro d hdm; simp [hd d hdm]
    simp [is_dynamic_badge, ha, hb, h3, himg h3]

/-- C4 witness: the shields.io branch fires on a readthedocs shields badge
URL (remove), with all hypotheses discharged concretely. -/
theorem is_dynamic_badge_spec_witness :
    is_dynamic_badge "https://img.shields.io/readthedocs/rivulet" = true :=
  ((is_dynamic_badge_spec "https://img.shields.io/readthedocs/rivulet").2.2.1
      (by decide) (by decide) (by decide)).mpr ⟨"readthedocs", by decide, by decide⟩

/-- C5: a matched badge (anchor-wrapped image) is removed exactly when the
classifier removes its href URL or its extracted img-src URL (logical OR);
when both classify as keep, the badge text is emitted unchanged.  The two
closing conjuncts exercise the whole removal pass on a document: a dynamic
badge disappears (together with its trailing whitespace), a static one is
kept verbatim. -/
theorem filter_badge_spec (full href : String) :
    ((is_dynamic_badge href = true ∨ is_dynamic_badge (imgSrcOf full) = true) →
      filter_badge full href = "") ∧
    (is_dynamic_badge href = false → is_dynamic_badge (imgSrcOf full) = false →
      filter_badge full href = full) ∧
    filter_badges_for_versioned_docs
        "<a href=\"https://github.com/x\"><img src=\"y\" alt=\"a\"></a> tail" = "tail" ∧
    filter_badges_for_versioned_docs
        "keep <a href=\"https://www.nuget.org/packages/X\"><img src=\"https://img.shields.io/nuget/v/X\" alt=\"a\"></a>end"
      = "keep <a href=\"https://www.nuget.org/packages/X\"><img src=\"https://img.shields.io/nuget/v/X\" alt=\"a\"></a>end" := by
  refine ⟨?_, ?_, by decide, by decide⟩
  · intro h
    rcases h with h | h <;> simp [filter_badge, h]
  · intro h1 h2
    simp [filter_badge, h1, h2]

/-- C5 witness: a badge whose href URL is on the deny-list is removed. -/
theorem filter_badge_spec_witness :
    filter_badge "<a href=\"https://github.com/x\"><img src=\"y\" alt=\"a\"></a>"
      "https://github.com/x" = "" :=
  (filter_badge_spec "<a href=\"https://github.com/x\"><img src=\"y\" alt=\"a\"></a>"
    "https://github.com/x").1 (Or.inl (by decide))

/-- C8: a centered div whose stripped inner content starts with `<img` and
contains exactly one `<img` (in particular: is exactly one image tag and
nothing else) re-emits as a centered block containing exactly that content
with the same `<div align="center">` wrapper; the closing conjunct runs the
whole div pass on such a block at the document level. -/
theorem process_center_div_single_image (inner : String)
    (h1 : "<img".data.isPrefixOf (stripL inner.data) = true)
    (h2 : countSub (stripL inner.data) "<img".data = 1) :
    process_center_div inner =
      "\n<div align=\"center\">\n" ++ (⟨stripL inner.data⟩ : String) ++ "\n</div>\n" ∧
    divPass "<div align=\"center\">\n<img src=\"logo.png\">\n</div>"
      = "\n<div align=\"center\">\n<img src=\"logo.png\">\n</div>\n" := by
  refine ⟨?_, by decide⟩
  unfold process_center_div
  rw [if_pos (by rw [h1, h2]; rfl)]
  rfl

/-- C8 witness: a single-image centered block's content round-trips with the
same wrapper. -/
theorem process_center_div_single_image_witness :
    process_center_div "<img src=\"logo.png\">"
      = "\n<div align=\"center\">\n<img src=\"logo.png\">\n</div>\n" := by
  have h := (process_center_div_single_image "<img src=\"logo.png\">"
    (by decide) (by decide)).1
  rw [h]; decide

/-- C9 counterexample: a cell with one badge line and TWO documentation-link
lines (so NOT "exactly one"); the claim's trigger condition does not hold and
its "every other case" clause demands the cell be left unchanged, but the
code rewrites it, keeping only the first doc-link line. -/
theorem improve_table_cell_two_doc_lines_rewritten :
    improve_table_cell "<img a><br/><a href=\"u\">Docs</a><br/><a href=\"v\">Docs</a>"
        = "<img a><br/><br/><a href=\"u\">Docs</a>" ∧
    "<img a><br/><br/><a href=\"u\">Docs</a>"
        ≠ "<img a><br/><a href=\"u\">Docs</a><br/><a href=\"v\">Docs</a>" :=
  ⟨by decide, by decide⟩

/-- When more than one visual line results and both a badge line and a
doc-link line are present, the cell is rewritten to the badge lines joined
on one line, a double line-break, and the first doc-link line. -/
theorem improve_table_cell_fires (cell : String)
    (h1 : 1 < (cellLines cell.data).length)
    (hb : ∃ l ∈ cellLines cell.data, containsL l "<img".data = true)
    (hd : ∃ l ∈ cellLines cell.data, containsL l "Docs</a>".data = true) :
    improve_table_cell cell =
      ⟨joinSep [' '] ((cellLines cell.data).filter (fun l => containsL l "<img".data)) ++
        "<br/><br/>".data ++
        ((cellLines cell.data).filter (fun l => containsL l "Docs</a>".data)).headD []⟩ := by
  obtain ⟨lb, hlb, hplb⟩ := hb
  obtain ⟨ld, hld, hpld⟩ := hd
  have hbne : (cellLines cell.data).filter (fun l => containsL l "<img".data) ≠ [] :=
    List.ne_nil_of_mem (List.mem_filter.mpr ⟨hlb, hplb⟩)
  have hdne : (cellLines cell.data).filter (fun l => containsL l "Docs</a>".data) ≠ [] :=
    List.ne_nil_of_mem (List.mem_filter.mpr ⟨hld, hpld⟩)
  unfold improve_table_cell
  rw [if_pos h1]
  rcases hB : (cellLines cell.data).filter (fun l => containsL l "<img".data) with _ | ⟨b, bs⟩
  · exact absurd hB hbne
  rcases hD : (cellLines cell.data).filter (fun l => containsL l "Docs</a>".data) with _ | ⟨d, ds⟩
  · exact absurd hD hdne
  simp

/-- C9 (amended): the reflow fires when more than one visual line results
and there is at least one image-bearing line and AT LEAST one (not exactly
one) documentation-link line, rewriting the cell to all badge lines joined
on a single line, a double line-break, and the FIRST doc-link line; with one
visual line, no badge line, or no doc-link line the cell is unchanged. -/
theorem improve_table_cell_spec (cell : String) :
    (1 < (cellLines cell.data).length →
      (∃ l ∈ cellLines cell.data, containsL l "<img".data = true) →
      (∃ l ∈ cellLines cell.data, containsL l "Docs</a>".data = true) →
      improve_table_cell cell =
        ⟨joinSep [' '] ((cellLines cell.data).filter (fun l => containsL l "<img".data)) ++
          "<br/><br/>".data ++
          ((cellLines cell.data).filter (fun l => containsL l "Docs</a>".data)).headD []⟩) ∧
    (¬ 1 < (cellLines cell.data).length → improve_table_cell cell = cell) ∧
    ((∀ l ∈ cellLines cell.data, containsL l "<img".data = false) →
      improve_table_cell cell = cell) ∧
    ((∀ l ∈ cellLines cell.data, containsL l "Docs</a>".data = false) →
      improve_table_cell cell = cell) := by
  refine ⟨improve_table_cell_fires cell, ?_, ?_, ?_⟩
  · intro h1
    unfold improve_table_cell
    rw [if_neg h1]
  · intro h
    have hB : (cellLines cell.data).filter (fun l => containsL l "<img".data) = [] :=
      List.filter_eq_nil_iff.mpr (fun l hl => by simp [h l hl])
    unfold improve_table_cell
    by_cases h1 : 1 < (cellLines cell.data).length
    · rw [if_pos h1, hB]
    · rw [if_neg h1]
  · intro h
    have hD : (cellLines cell.data).filter (fun l => containsL l "Docs</a>".data) = [] :=
      List.filter_eq_nil_iff.mpr (fun l hl => by simp [h l hl])
    unfold improve_table_cell
    by_cases h1 : 1 < (cellLines cell.data).length
    · rw [if_pos h1, hD]
      rcases (cellLines cell.data).filter (fun l => containsL l "<img".data) with _ | ⟨b, bs⟩ <;> rfl
    · rw [if_neg h1]

/-- C9 witness: two badge lines and one doc-link line reflow to
"badge1 badge2", a blank separator, then the doc-link line. -/
theorem improve_table_cell_spec_witness :
    improve_table_cell
        "<a href=\"u\"><img src=\"b1\"></a><br/><a href=\"v\"><img src=\"b2\"></a><br/><a href=\"w\">Docs</a>"
      = "<a href=\"u\"><img src=\"b1\"></a> <a href=\"v\"><img src=\"b2\"></a><br/><br/><a href=\"w\">Docs</a>" := by
  have h := (improve_table_cell_spec
    "<a href=\"u\"><img src=\"b1\"></a><br/><a href=\"v\"><img src=\"b2\"></a><br/><a href=\"w\">Docs</a>").1
    (by decide) (by decide) (by decide)
  rw [h]; decide

/-- A member of `parts` occurs contiguously inside `joinSep sep parts`. -/
theorem joinSep_decomp (sep : List Char) {b : List Char} {parts : List (List Char)}
    (hb : b ∈ parts) : ∃ u v, joinSep sep parts = u ++ b ++ v := by
  induction parts with
  | nil => cases hb
  | cons x xs ih =>
    rcases List.mem_cons.mp hb with h | h
    · subst h
      cases xs with
      | nil => exact ⟨[], [], by simp [joinSep]⟩
      | cons y ys => exact ⟨[], sep ++ joinSep sep (y :: ys), by simp [joinSep]⟩
    · obtain ⟨u, v, huv⟩ := ih h
      cases xs with
      | nil => cases h
      | cons y ys => exact ⟨x ++ sep ++ u, v, by simp [joinSep, huv]⟩

/-- A substring of a part is a substring of the joined string. -/
theorem containsL_joinSep {sep sub b : List Char} {parts : List (List Char)}
    (hb : b ∈ parts) (h : containsL b sub = true) :
    containsL (joinSep sep parts) sub = true := by
  obtain ⟨u, v, huv⟩ := joinSep_decomp sep hb
  exact containsL_trans h ((containsL_iff _ _).mpr ⟨u, v, huv⟩)

/-- C10 counterexample: when the reflow fires, a documentation-link line
occurring AFTER the first one survives in the output if it also contains an
image tag (it is kept as a badge line), contradicting the claim that every
doc-link line after the first is deleted.  The doc-link lines of the input
cell are `<a>Docs</a>` then `<img x><a>Docs</a>`; the second one is a visual
line of the output. -/
theorem doc_line_after_first_with_image_kept :
    ((cellLines "<a>Docs</a><br/><img x><a>Docs</a>".data).filter
        (fun l => containsL l "Docs</a>".data)
      = ["<a>Docs</a>".data, "<img x><a>Docs</a>".data]) ∧
    improve_table_cell "<a>Docs</a><br/><img x><a>Docs</a>"
      = "<img x><a>Docs</a><br/><br/><a>Docs</a>" ∧
    "<img x><a>Docs</a>".data
      ∈ cellLines (improve_table_cell "<a>Docs</a><br/><img x><a>Docs</a>").data :=
  ⟨by decide, by decide, by decide⟩

/-- C10 (amended): when the reflow fires, the output is exactly the badge
lines (every line containing an image tag) joined on one line, a double
line-break, and the first doc-link line; consequently every input line with
neither marker is not among the kept constituents (neither a kept badge line
nor the kept doc line), and every doc-link line after the first that does
not itself contain an image tag is not among the kept badge lines (it is
dropped unless it textually equals the first doc-link line). -/
theorem improve_table_cell_reflow_only_keeps (cell : String)
    (h1 : 1 < (cellLines cell.data).length)
    (hb : ∃ l ∈ cellLines cell.data, containsL l "<img".data = true)
    (hd : ∃ l ∈ cellLines cell.data, containsL l "Docs</a>".data = true) :
    improve_table_cell cell =
      ⟨joinSep [' '] ((cellLines cell.data).filter (fun l => containsL l "<img".data)) ++
        "<br/><br/>".data ++
        ((cellLines cell.data).filter (fun l => containsL l "Docs</a>".data)).headD []⟩ ∧
    containsL (joinSep [' '] ((cellLines cell.data).filter (fun l => containsL l "<img".data)))
      "<img".data = true ∧
    containsL (((cellLines cell.data).filter (fun l => containsL l "Docs</a>".data)).headD [])
      "Docs</a>".data = true ∧
    (∀ l ∈ cellLines cell.data, containsL l "<img".data = false →
      containsL l "Docs</a>".data = false →
      l ∉ (cellLines cell.data).filter (fun l => containsL l "<img".data) ∧
      l ≠ ((cellLines cell.data).filter (fun l => containsL l "Docs</a>".data)).headD []) ∧
    (∀ l ∈ ((cellLines cell.data).filter (fun l => containsL l "Docs</a>".data)).tail,
      containsL l "<img".data = false →
      l ∉ (cellLines cell.data).filter (fun l => containsL l "<img".data)) := by
  obtain ⟨lb, hlb, hplb⟩ := hb
  obtain ⟨ld, hld, hpld⟩ := hd
  have hbmem : lb ∈ (cellLines cell.data).filter (fun l => containsL l "<img".data) :=
    List.mem_filter.mpr ⟨hlb, hplb⟩
  have hdmem : ld ∈ (cellLines cell.data).filter (fun l => containsL l "Docs</a>".data) :=
    List.mem_filter.mpr ⟨hld, hpld⟩
  have hdhead : containsL
      (((cellLines cell.data).filter (fun l => containsL l "Docs</a>".data)).headD [])
      "Docs</a>".data = true := by
    rcases hD : (cellLines cell.data).filter (fun l => containsL l "Docs</a>".data)
      with _ | ⟨d, ds⟩
    · rw [hD] at hdmem; cases hdmem
    · have : d ∈ (cellLines cell.data).filter (fun l => containsL l "Docs</a>".data) := by
        rw [hD]; exact List.mem_cons_self d ds
      exact (List.mem_filter.mp this).2
  refine ⟨?_, ?_, hdhead, ?_, ?_⟩
  · exact improve_table_cell_fires cell h1 ⟨lb, hlb, hplb⟩ ⟨ld, hld, hpld⟩
  · exact containsL_joinSep hbmem hplb
  · intro l hl hni hnd
    constructor
    · intro hmem
      have := (List.mem_filter.mp hmem).2
      rw [hni] at this
      exact absurd this (by simp)
    · intro he
      rw [he, hdhead] at hnd
      exact absurd hnd (by simp)
  · intro l hl hni hmem
    have := (List.mem_filter.mp hmem).2
    rw [hni] at this
    exact absurd this (by simp)

/-- C10 witness: a cell with one badge line, one plain-text line and one
doc-link line reflows to badge, blank separator, doc link — the plain-text
line is gone. -/
theorem improve_table_cell_reflow_only_keeps_witness :
    improve_table_cell "<img b1><br/>plain text<br/><a href=\"w\">Docs</a>"
      = "<img b1><br/><br/><a href=\"w\">Docs</a>" := by
  have h := (improve_table_cell_reflow_only_keeps
    "<img b1><br/>plain text<br/><a href=\"w\">Docs</a>"
    (by decide) (by decide) (by decide)).1
  rw [h]; decide

/-- C1 counterexample: the full pipeline is NOT idempotent.  A document that
is a single centered image block transforms to the same block surrounded by
one newline on each side; transforming that output again adds another
newline on each side (the div regex matches the re-emitted block and the
replacement unconditionally pads it with `\n`), so the second application
changes the text. -/
theorem pipeline_not_idempotent :
    convert_github_to_mkdocs [] (fun _ => false)
        (convert_github_to_mkdocs [] (fun _ => false)
          "<div align=\"center\">\n<img src=\"x\">\n</div>")
      ≠ convert_github_to_mkdocs [] (fun _ => false)
          "<div align=\"center\">\n<img src=\"x\">\n</div>" := by decide

/-- C1 (amended): the pipeline is deterministic but not idempotent: on a
document whose output contains a centered single-image block, a second
application reproduces the first output padded with one additional newline
before and after the block (and is otherwise stable under the further
passes). -/
theorem pipeline_second_pass_pads :
    convert_github_to_mkdocs [] (fun _ => false)
        (convert_github_to_mkdocs [] (fun _ => false)
          "<div align=\"center\">\n<img src=\"x\">\n</div>")
      = "\n" ++ convert_github_to_mkdocs [] (fun _ => false)
          "<div align=\"center\">\n<img src=\"x\">\n</div>" ++ "\n" := by decide

/-- C2 counterexample: the orchestrator's output is NOT a function of
(document text, Sync Map) alone: with the same text and the same (empty)
Sync Map, the output differs depending on whether `zzz.md` exists on disk
(the Link Resolver calls `Path.exists()`): if it exists un-synced the inline
link is deleted, if not the link is kept. -/
theorem pipeline_reads_disk :
    convert_github_to_mkdocs [] (fun p => p == "zzz.md") "a [x](zzz.md) b"
      ≠ convert_github_to_mkdocs [] (fun _ => false) "a [x](zzz.md) b" := by decide

/-- C2 (amended): every stage — and the orchestrator — is a pure function of
(document text, Sync Map, file-existence oracle): two runs on the same text
with the same Sync Map that agree on the existence of every path produce
identical output.  It is not a pure function of (text, Sync Map) alone,
because the Link Resolver consults file existence (see the counterexample). -/
theorem pipeline_deterministic (sm : SyncMap) (fs₁ fs₂ : Fs) (t : String)
    (h : ∀ p, fs₁ p = fs₂ p) :
    convert_github_to_mkdocs sm fs₁ t = convert_github_to_mkdocs sm fs₂ t := by
  have hf : fs₁ = fs₂ := funext h
  rw [hf]

/-- C2 witness: the determinism theorem applied at a concrete document,
Sync Map and oracle. -/
theorem pipeline_deterministic_witness :
    convert_github_to_mkdocs [] (fun p => p == "zzz.md") "a [x](zzz.md) b"
      = convert_github_to_mkdocs [] (fun p => p == "zzz.md") "a [x](zzz.md) b" :=
  pipeline_deterministic [] (fun p => p == "zzz.md") (fun p => p == "zzz.md")
    "a [x](zzz.md) b" (fun _ => rfl)

/-- C3 counterexample: a prose (non-list) link to a path that does NOT exist
is NOT removed — `convert_link` keeps it via its final fallback — whereas
the claim says the link markup of every not-existing target is removed
(which would give "See  ok"). -/
theorem broken_inline_link_kept :
    convert_markdown_links [] (fun _ => false) "See [x](zzz.md) ok"
      = "See [x](zzz.md) ok" ∧
    ("See [x](zzz.md) ok" : String) ≠ "See  ok" :=
  ⟨by decide, by decide⟩

/-- C3 (amended): for a markdown link that is not scheme-prefixed
(http/https), not an anchor, and whose normalized target has no Sync Map
entry: if the target EXISTS on disk, the link is marked for removal — the
whole line when the trimmed line prefix starts with the list bullet `-`,
otherwise only the link markup; if the target does NOT exist, the whole line
is removed only in the list-bullet case, and otherwise the link is kept
unchanged.  The last two conjuncts show the document-level sweep: a
list-item line with an existing un-synced link vanishes entirely, and a
mid-paragraph link to an existing un-synced file loses only its markup. -/
theorem convert_link_removal_spec (sm : SyncMap) (fs : Fs) (text path linePfx : String)
    (h1 : startsWithStr path "http://" = false)
    (h2 : startsWithStr path "https://" = false)
    (h3 : startsWithStr path "#" = false)
    (h4 : lookupSync sm (linkTarget path) = none) :
    (fs (linkTarget path) = true →
      convert_link sm fs text path linePfx =
        if startsWithStr (stripStr linePfx) "-" then removeLineMarker
        else removeLinkMarker) ∧
    (fs (linkTarget path) = false →
      convert_link sm fs text path linePfx =
        if startsWithStr (stripStr linePfx) "-" then removeLineMarker
        else "[" ++ text ++ "](" ++ path ++ ")") ∧
    convert_markdown_links [] (fun p => p == "docs/extra.md")
        "- See [extra info](docs/extra.md)\nrest\n" = "rest\n" ∧
    convert_markdown_links [] (fun p => p == "docs/extra.md")
        "A [extra](docs/extra.md) B" = "A  B" := by
  refine ⟨?_, ?_, by decide, by decide⟩
  · intro hfs
    unfold convert_link
    rw [h1, h2, h3]
    simp [h4, hfs]
  · intro hfs
    unfold convert_link
    rw [h1, h2, h3]
    simp [h4, hfs]

/-- C3 witness: a prose link to an existing un-synced file is replaced by the
inline-removal marker. -/
theorem convert_link_removal_spec_witness :
    convert_link [] (fun p => p == "docs/extra.md") "extra" "docs/extra.md" "A "
      = removeLinkMarker := by
  have h := (convert_link_removal_spec [] (fun p => p == "docs/extra.md")
    "extra" "docs/extra.md" "A " (by decide) (by decide) (by decide) (by decide)).1
    (by decide)
  rw [h]; decide

/-- C6: a link whose normalized path is a Sync Map key rewrites to the
mapped destination path (relative to the docs root) with the display text
unchanged; and through the full pipeline, `[Docs](src/Example/README.md)`
with a Sync Map entry for that package produces `[Docs](packages/example.md)`
(the shorthand pass canonicalizes the path before the generic resolution). -/
theorem synced_link_rewrite (sm : SyncMap) (fs : Fs) (text path linePfx dest : String)
    (h1 : startsWithStr path "http://" = false)
    (h2 : startsWithStr path "https://" = false)
    (h3 : startsWithStr path "#" = false)
    (h4 : lookupSync sm (linkTarget path) = some dest) :
    convert_link sm fs text path linePfx = "[" ++ text ++ "](" ++ dest ++ ")" ∧
    convert_github_to_mkdocs [("src/Example/README.md", "packages/example.md")]
        (fun _ => false) "[Docs](src/Example/README.md)"
      = "[Docs](packages/example.md)" := by
  refine ⟨?_, by decide⟩
  unfold convert_link
  rw [h1, h2, h3]
  simp only [Bool.or_self, Bool.false_eq_true, if_false, h4]

/-- C6 witness: a direct Sync Map hit rewrites to the destination path with
the display text preserved. -/
theorem synced_link_rewrite_witness :
    convert_link [("src/Example/README.md", "packages/example.md")] (fun _ => false)
      "Docs" "src/Example/README.md" "" = "[Docs](packages/example.md)" := by
  have h := (synced_link_rewrite [("src/Example/README.md", "packages/example.md")]
    (fun _ => false) "Docs" "src/Example/README.md" "" "packages/example.md"
    (by decide) (by decide) (by decide) (by decide)).1
  rw [h]; rfl

/-- C7 counterexample: a scheme-prefixed URL that is not http/https is NOT
passed through unchanged: an `ftp://` link in a list item falls through to
path resolution (target does not exist, list-bullet prefix) and the whole
line is deleted. -/
theorem scheme_link_not_passed_through :
    convert_markdown_links [] (fun _ => false) "- [a](ftp://example.com/x)\n" = "" ∧
    ("" : String) ≠ "- [a](ftp://example.com/x)\n" :=
  ⟨by decide, by decide⟩

/-- C7 (amended): the Link Resolver passes a link through unchanged when its
target starts with `http://`, `https://`, or `#` — not for arbitrary
scheme-prefixed URLs (see the counterexample). -/
theorem convert_link_passthrough (sm : SyncMap) (fs : Fs) (text path linePfx : String)
    (h : startsWithStr path "http://" = true ∨ startsWithStr path "https://" = true ∨
      startsWithStr path "#" = true) :
    convert_link sm fs text path linePfx = "[" ++ text ++ "](" ++ path ++ ")" := by
  unfold convert_link
  rcases h with h | h | h
  · rw [h]; simp
  · rw [h]; simp
  · rw [h]
    by_cases hc : (startsWithStr path "http://" || startsWithStr path "https://") = true
    · rw [hc]; simp
    · simp only [Bool.not_eq_true] at hc
      rw [hc]; simp

/-- C7 witness: an in-page anchor link passes through unchanged. -/
theorem convert_link_passthrough_witness :
    convert_link [] (fun _ => false) "a" "#section" "- " = "[a](#section)" :=
  convert_link_passthrough [] (fun _ => false) "a" "#section" "- "
    (Or.inr (Or.inr (by decide)))

end Rivulet
